import Mathlib

/-! Shallow embedding of `src/EvseSimulator.py` (classes `Device` and the parts of
`DeviceSimulatorApp` its decision algorithm reads), for checking the
the claims of the specification about the device decision algorithm `Device.set_draw`
and the constructor validation in `Device.__init__`.

Modelling decisions:
* Python numbers are modelled exactly: amp values are integers (`ℤ`); the
  fractional carryover and the time/random values are rationals (`ℚ`).
  `math.modf` is `pymodf` (fractional/integer split, truncating toward zero).
* `random.randint(0, 0xFFFFFFFF) / 0xFFFFFFFF` is an input `random_pct : ℚ`.
* `time.time()` is an input `now : ℚ`.
* `self.system.total_amps` is the parameter `total`.
* Python exceptions (`ZeroDivisionError` from `/`, `ValueError` from
  `__init__`) are modelled by returning the mutated-so-far state together with
  `some errorName`; a normal return carries `none`.  Mutations performed before
  the raise point are kept, as on the Python object.
-/

namespace EvseSimulator

/-- Python `math.modf x`: the pair (fractional part, integer part), where the
integer part truncates toward zero (`math.modf(-10.3) = (-0.3, -10.0)`). -/
def pymodf (x : ℚ) : ℚ × ℤ :=
  let ip : ℤ := if 0 ≤ x then ⌊x⌋ else ⌈x⌉
  (x - (ip : ℚ), ip)

/-- The mutable state of `Device` (fields set in `Device.__init__`,
lines 41-67 of `src/EvseSimulator.py`).  The `system` back-reference is
replaced by passing `total` (i.e. `system.total_amps`) to `set_draw`. -/
structure Device where
  min_amp_draw : ℤ
  safe_amp_draw : ℤ
  max_amp_draw : ℤ
  weight : ℤ
  is_ev : Bool
  always_draw_min : Bool
  current_amp_draw : ℤ
  desired_amp_draw : ℤ
  is_on : Bool
  is_connected : Bool
  waited_cycles : ℤ
  last_heartbeat : ℚ
  carryover_adjustment : ℚ
  deriving Repr, DecidableEq

/-- Constructor `Device.__init__` (lines 41-76): builds the initial state and validates
`safe_amp_draw`.  In Python, `max_amp_draw or min_amp_draw` falls back to
`min_amp_draw` when `max_amp_draw` is `None` or `0` (both falsy).
The guard `self.is_ev and self.safe_amp_draw < self.min_amp_draw and
self.safe_amp_draw > 0` raises `ValueError`. -/
def deviceInit (mn sf : ℤ) (mx : Option ℤ) (ev al : Bool) (w : ℤ) :
    Except String Device :=
  let d : Device :=
    { min_amp_draw := mn
      safe_amp_draw := sf
      max_amp_draw := match mx with
        | some m => if m = 0 then mn else m
        | none => mn
      weight := w
      is_ev := ev
      always_draw_min := al
      current_amp_draw := 0
      desired_amp_draw := 0
      is_on := false
      is_connected := true
      waited_cycles := 0
      last_heartbeat := 0
      carryover_adjustment := 0 }
  if ev = true ∧ sf < mn ∧ 0 < sf then
    Except.error ("ValueError")
  else
    Except.ok d

/-- The partial (weighted) shed amount of the overdraw branch, line 114:
the integer part of `overdraw * (1 - weight / total_amps)`. -/
def shedP (total w overdraw : ℤ) : ℤ :=
  (pymodf ((overdraw : ℚ) * (1 - (w : ℚ) / (total : ℚ)))).2

/-- Tail of the overdraw branch (lines 123-134): set `desired_amp_draw`,
subtract the shed amount from `current_amp_draw`, and collapse to the floor
(`min_amp_draw` if `always_draw_min` else `0`) when the result drops below
`min_amp_draw`. -/
def shedTail (d : Device) (shed_amount overdraw : ℤ) : Device :=
  let d1 : Device :=
    { d with
      desired_amp_draw :=
        max (if d.always_draw_min then d.min_amp_draw else 0)
          (d.current_amp_draw - overdraw) }
  let d2 : Device :=
    { d1 with current_amp_draw := d1.current_amp_draw - shed_amount }
  if d2.current_amp_draw < d2.min_amp_draw then
    { d2 with
      desired_amp_draw := if d2.always_draw_min then d2.min_amp_draw else 0
      current_amp_draw := if d2.always_draw_min then d2.min_amp_draw else 0 }
  else d2

/-- The overdraw branch of `set_draw` (lines 104-134).  With
`waited_cycles > 3` (`max_delay = 3`) the full compliant shed
`min overdraw current_amp_draw` is used and `waited_cycles` resets;
otherwise the weighted partial shed is used (this path computes
`weight / total_amps`, so `total = 0` raises `ZeroDivisionError` here)
and `waited_cycles` increments. -/
def overdrawBranch (total : ℤ) (d : Device) (available_amps : ℤ) :
    Device × Option String :=
  let overdraw : ℤ := |available_amps|
  if 3 < d.waited_cycles then
    (shedTail { d with waited_cycles := 0 }
      (min overdraw d.current_amp_draw) overdraw, none)
  else if total = 0 then
    (d, some ("ZeroDivisionError"))
  else
    (shedTail { d with waited_cycles := d.waited_cycles + 1 }
      (shedP total d.weight overdraw) overdraw, none)

/-- Lines 168-172 of the headroom branch: `math.modf` splits
`weighted_increase + carryover_adjustment` into the new carryover (fractional
part) and the integer part `increase`; `min 1 increase` is what line 172 adds
to `current_amp_draw`.  Returns (new carryover, applied amount). -/
def applyIncrease (carry weighted_increase : ℚ) : ℚ × ℤ :=
  let p := pymodf (weighted_increase + carry)
  (p.1, min 1 p.2)

/-- The carry accounting of lines 164-172 iterated over a sequence of raw
weighted increases `ws` starting from carryover `c`: returns the final
carryover and the total of the applied integer increases
(`min 1 increase` per step). -/
def runIncreases : ℚ → List ℚ → ℚ × ℤ
  | c, [] => (c, 0)
  | c, w :: ws =>
    let p := applyIncrease c w
    let rest := runIncreases p.1 ws
    (rest.1, p.2 + rest.2)

/-- Lines 137-142: the candidate `desired_amp_draw` of the headroom branch:
`min(max_amp_draw, current_amp_draw + available_amps)`, raised to
`min_amp_draw` when below it. -/
def headroomDesired (d : Device) (available_amps : ℤ) : ℤ :=
  let des1 : ℤ := min d.max_amp_draw (d.current_amp_draw + available_amps)
  if des1 < d.min_amp_draw then d.min_amp_draw else des1

/-- The headroom branch of `set_draw` (lines 135-174): compute the candidate
`desired_amp_draw`, run the 10% stability gate (whose division raises
`ZeroDivisionError` when the candidate is `0`), then the weighted admission
lottery (`weight / total_amps`, raising when `total = 0`), and on admission
either jump to `min_amp_draw` (from zero) or apply the carried weighted
increase, clamping to `max_amp_draw`. -/
def headroomBranch (total : ℤ) (d : Device) (available_amps : ℤ)
    (random_pct : ℚ) : Device × Option String :=
  let previous_desired : ℤ := d.desired_amp_draw
  let des2 : ℤ := headroomDesired d available_amps
  let d : Device := { d with desired_amp_draw := des2 }
  if des2 = 0 then
    (d, some ("ZeroDivisionError"))
  else if 1 / 10 < |((previous_desired : ℚ) - (des2 : ℚ))| / (des2 : ℚ) then
    (d, none)
  else if total = 0 then
    (d, some ("ZeroDivisionError"))
  else
    let weight_pct : ℚ := (d.weight : ℚ) / (total : ℚ)
    if random_pct < weight_pct then
      if d.current_amp_draw = 0 then
        if d.min_amp_draw ≤ available_amps then
          ({ d with current_amp_draw := d.min_amp_draw }, none)
        else (d, none)
      else
        let weighted_increase : ℚ :=
          ((des2 : ℚ) - (d.current_amp_draw : ℚ)) * weight_pct
        let p := applyIncrease d.carryover_adjustment weighted_increase
        let d : Device :=
          { d with
            carryover_adjustment := p.1
            current_amp_draw := d.current_amp_draw + p.2 }
        if d.max_amp_draw < d.current_amp_draw then
          ({ d with current_amp_draw := d.max_amp_draw }, none)
        else (d, none)
    else (d, none)

/-- Dispatch on the sign of `available_amps` (lines 104 and 135): the
overdraw branch when negative, the headroom branch when nonnegative and
`current_amp_draw < max_amp_draw`, otherwise fall through unchanged. -/
def continueEv (total : ℤ) (d : Device) (available_amps : ℤ)
    (random_pct : ℚ) : Device × Option String :=
  if available_amps < 0 then overdrawBranch total d available_amps
  else if 0 ≤ available_amps ∧ d.current_amp_draw < d.max_amp_draw then
    headroomBranch total d available_amps random_pct
  else (d, none)

/-- The decision algorithm `Device.set_draw` (lines 78-179).  `data` is `None` or `{amps: n}`;
`now` stands for `time.time()` and `random_pct` for the uniform draw of
line 156.  Returns the post-state and `some errorName` when the Python code
would raise. -/
def set_draw (total : ℤ) (d : Device) (data : Option ℤ) (now random_pct : ℚ) :
    Device × Option String :=
  if d.is_on = false then
    ({ d with current_amp_draw := 0, desired_amp_draw := 0, waited_cycles := 0 },
      none)
  else if d.is_ev = true then
    let d : Device := { d with last_heartbeat := now }
    if d.always_draw_min = true ∧ d.current_amp_draw = 0 then
      ({ d with
          current_amp_draw := d.min_amp_draw
          desired_amp_draw := d.min_amp_draw }, none)
    else
      match data with
      | none =>
        let d : Device :=
          if d.safe_amp_draw < d.current_amp_draw then
            { d with
                current_amp_draw := d.safe_amp_draw
                desired_amp_draw := d.safe_amp_draw }
          else d
        let available_amps : ℤ :=
          if d.current_amp_draw ≠ d.safe_amp_draw then d.safe_amp_draw else 0
        continueEv total d available_amps random_pct
      | some amps => continueEv total d (total - amps) random_pct
  else
    if d.current_amp_draw = 0 then
      ({ d with
          current_amp_draw := d.min_amp_draw
          desired_amp_draw := d.min_amp_draw }, none)
    else (d, none)

/-- Runs `n` consecutive `set_draw` invocations with the same meter reading
`{amps}` (the sustained-overdraw scenario of the shed-bound property). -/
def shedRun (total amps : ℤ) (now r : ℚ) (d : Device) : ℕ → Device
  | 0 => d
  | n + 1 => (set_draw total (shedRun total amps now r d n) (some amps) now r).1

/-! Basic branch-selection lemmas -/

theorem pymodf_of_nonneg (x : ℚ) (h : 0 ≤ x) :
    pymodf x = (x - (⌊x⌋ : ℚ), ⌊x⌋) := by
  simp [pymodf, h]

theorem set_draw_off (total : ℤ) (d : Device) (data : Option ℤ) (now r : ℚ)
    (h : d.is_on = false) :
    set_draw total d data now r =
      ({ d with
          current_amp_draw := 0
          desired_amp_draw := 0
          waited_cycles := 0 }, none) := by
  simp [set_draw, h]

theorem set_draw_ev_data (total amps : ℤ) (d : Device) (now r : ℚ)
    (h_on : d.is_on = true) (h_ev : d.is_ev = true)
    (h_boot : d.always_draw_min = false ∨ d.current_amp_draw ≠ 0) :
    set_draw total d (some amps) now r =
      continueEv total { d with last_heartbeat := now } (total - amps) r := by
  rcases h_boot with h | h <;> simp [set_draw, h_on, h_ev, h]

theorem continueEv_overdraw_weighted (total : ℤ) (d : Device) (a : ℤ) (r : ℚ)
    (h_a : a < 0) (h_w : d.waited_cycles ≤ 3) (h_t : total ≠ 0) :
    continueEv total d a r =
      (shedTail { d with waited_cycles := d.waited_cycles + 1 }
        (shedP total d.weight (-a)) (-a), none) := by
  have habs : |a| = -a := abs_of_neg h_a
  simp [continueEv, overdrawBranch, h_a, not_lt.mpr h_w, h_t, habs]

theorem continueEv_overdraw_full (total : ℤ) (d : Device) (a : ℤ) (r : ℚ)
    (h_a : a < 0) (h_w : 3 < d.waited_cycles) :
    continueEv total d a r =
      (shedTail { d with waited_cycles := 0 }
        (min (-a) d.current_amp_draw) (-a), none) := by
  have habs : |a| = -a := abs_of_neg h_a
  simp [continueEv, overdrawBranch, h_a, h_w, habs]

theorem shedTail_no_collapse (d : Device) (shed over : ℤ)
    (h : d.min_amp_draw ≤ d.current_amp_draw - shed) :
    shedTail d shed over =
      { d with
        desired_amp_draw :=
          max (if d.always_draw_min then d.min_amp_draw else 0)
            (d.current_amp_draw - over)
        current_amp_draw := d.current_amp_draw - shed } := by
  simp [shedTail, not_lt.mpr h]

/-! Field-preservation lemmas -/

@[simp]
theorem shedTail_min (d : Device) (shed over : ℤ) :
    (shedTail d shed over).min_amp_draw = d.min_amp_draw := by
  simp only [shedTail]; split_ifs <;> rfl

@[simp]
theorem shedTail_max (d : Device) (shed over : ℤ) :
    (shedTail d shed over).max_amp_draw = d.max_amp_draw := by
  simp only [shedTail]; split_ifs <;> rfl

@[simp]
theorem shedTail_always (d : Device) (shed over : ℤ) :
    (shedTail d shed over).always_draw_min = d.always_draw_min := by
  simp only [shedTail]; split_ifs <;> rfl

@[simp]
theorem shedTail_waited (d : Device) (shed over : ℤ) :
    (shedTail d shed over).waited_cycles = d.waited_cycles := by
  simp only [shedTail]; split_ifs <;> rfl

@[simp]
theorem shedTail_heartbeat (d : Device) (shed over : ℤ) :
    (shedTail d shed over).last_heartbeat = d.last_heartbeat := by
  simp only [shedTail]; split_ifs <;> rfl

@[simp]
theorem shedTail_carry (d : Device) (shed over : ℤ) :
    (shedTail d shed over).carryover_adjustment = d.carryover_adjustment := by
  simp only [shedTail]; split_ifs <;> rfl

@[simp]
theorem shedTail_on (d : Device) (shed over : ℤ) :
    (shedTail d shed over).is_on = d.is_on := by
  simp only [shedTail]; split_ifs <;> rfl

@[simp]
theorem shedTail_ev (d : Device) (shed over : ℤ) :
    (shedTail d shed over).is_ev = d.is_ev := by
  simp only [shedTail]; split_ifs <;> rfl

@[simp]
theorem shedTail_weight (d : Device) (shed over : ℤ) :
    (shedTail d shed over).weight = d.weight := by
  simp only [shedTail]; split_ifs <;> rfl

@[simp]
theorem shedTail_safe (d : Device) (shed over : ℤ) :
    (shedTail d shed over).safe_amp_draw = d.safe_amp_draw := by
  simp only [shedTail]; split_ifs <;> rfl

theorem headroomBranch_heartbeat (total : ℤ) (d : Device) (a : ℤ) (r : ℚ) :
    (headroomBranch total d a r).1.last_heartbeat = d.last_heartbeat := by
  simp only [headroomBranch]
  split_ifs <;> rfl

theorem overdrawBranch_heartbeat (total : ℤ) (d : Device) (a : ℤ) :
    (overdrawBranch total d a).1.last_heartbeat = d.last_heartbeat := by
  simp only [overdrawBranch]
  split_ifs <;> simp

theorem continueEv_heartbeat (total : ℤ) (d : Device) (a : ℤ) (r : ℚ) :
    (continueEv total d a r).1.last_heartbeat = d.last_heartbeat := by
  simp only [continueEv]
  split_ifs with h1 h2
  · exact overdrawBranch_heartbeat total d a
  · exact headroomBranch_heartbeat total d a r
  · rfl

/-! Bounds lemmas -/

theorem pymodf_int_nonneg (x : ℚ) (h : 0 ≤ x) : 0 ≤ (pymodf x).2 := by
  rw [pymodf_of_nonneg x h]
  exact Int.floor_nonneg.mpr h

theorem pymodf_frac_bounds (x : ℚ) (h : 0 ≤ x) :
    0 ≤ (pymodf x).1 ∧ (pymodf x).1 < 1 := by
  rw [pymodf_of_nonneg x h]
  constructor
  · simp only
    linarith [Int.floor_le x]
  · simp only
    linarith [Int.lt_floor_add_one x]

theorem shedP_nonneg (total w over : ℤ) (htot : 0 < total) (hw0 : 0 ≤ w)
    (hwt : w ≤ total) (hover : 0 ≤ over) : 0 ≤ shedP total w over := by
  apply pymodf_int_nonneg
  apply mul_nonneg (by exact_mod_cast hover)
  have htq : (0 : ℚ) < (total : ℤ) := by exact_mod_cast htot
  have : (w : ℚ) / (total : ℚ) ≤ 1 := by
    rw [div_le_one htq]
    exact_mod_cast hwt
  linarith

theorem shedTail_current_bounds (d : Device) (shed over : ℤ)
    (hmn : 0 ≤ d.min_amp_draw) (hmx : d.min_amp_draw ≤ d.max_amp_draw)
    (hshed : 0 ≤ shed) (hcur : d.current_amp_draw ≤ d.max_amp_draw) :
    0 ≤ (shedTail d shed over).current_amp_draw ∧
      (shedTail d shed over).current_amp_draw ≤ d.max_amp_draw := by
  simp only [shedTail]
  split_ifs <;> dsimp only at * <;> omega

theorem applyIncrease_bounds (c w : ℚ) (hc : 0 ≤ c) (hw : 0 ≤ w) :
    0 ≤ (applyIncrease c w).1 ∧ (applyIncrease c w).1 < 1 ∧
      0 ≤ (applyIncrease c w).2 ∧ (applyIncrease c w).2 ≤ 1 := by
  have hx : (0 : ℚ) ≤ w + c := by linarith
  have h1 := pymodf_frac_bounds (w + c) hx
  have h2 := pymodf_int_nonneg (w + c) hx
  refine ⟨h1.1, h1.2, ?_, ?_⟩
  · simp only [applyIncrease]
    exact le_min (by norm_num) h2
  · simp only [applyIncrease]
    exact min_le_left _ _

theorem headroomDesired_ge (d : Device) (a : ℤ) (ha : 0 ≤ a)
    (hcur : d.current_amp_draw ≤ d.max_amp_draw) :
    d.current_amp_draw ≤ headroomDesired d a := by
  simp only [headroomDesired]
  omega

theorem weighted_increase_nonneg (total : ℤ) (d : Device) (a : ℤ)
    (hw0 : 0 ≤ d.weight) (htot : (0 : ℚ) < (total : ℚ)) (ha : 0 ≤ a)
    (hcur : d.current_amp_draw ≤ d.max_amp_draw) :
    (0 : ℚ) ≤ ((headroomDesired d a : ℤ) - (d.current_amp_draw : ℚ)) *
      ((d.weight : ℚ) / (total : ℚ)) := by
  apply mul_nonneg
  · have h := headroomDesired_ge d a ha hcur
    have hcast : (d.current_amp_draw : ℚ) ≤ ((headroomDesired d a : ℤ) : ℚ) := by
      exact_mod_cast h
    linarith
  · exact div_nonneg (by exact_mod_cast hw0) htot.le

theorem total_pos_of_admitted (total : ℤ) (d : Device) (r : ℚ)
    (hw0 : 0 ≤ d.weight) (hr : 0 ≤ r) (h3 : ¬total = 0)
    (h4 : r < (d.weight : ℚ) / (total : ℚ)) : (0 : ℚ) < (total : ℚ) := by
  rcases lt_trichotomy total 0 with ht | ht | ht
  · exfalso
    have hvw : (d.weight : ℚ) / (total : ℚ) ≤ 0 :=
      div_nonpos_of_nonneg_of_nonpos (by exact_mod_cast hw0)
        (by exact_mod_cast ht.le)
    exact absurd h4 (not_lt.mpr (le_trans hvw hr))
  · exact absurd ht h3
  · exact_mod_cast ht

theorem headroomBranch_bounds (total : ℤ) (d : Device) (a : ℤ) (r : ℚ)
    (hmn : 0 ≤ d.min_amp_draw) (hmx : d.min_amp_draw ≤ d.max_amp_draw)
    (hcur0 : 0 ≤ d.current_amp_draw) (hcur : d.current_amp_draw ≤ d.max_amp_draw)
    (hcarry : 0 ≤ d.carryover_adjustment) (hw0 : 0 ≤ d.weight)
    (hr : 0 ≤ r) (ha : 0 ≤ a) :
    (0 ≤ (headroomBranch total d a r).1.current_amp_draw ∧
      (headroomBranch total d a r).1.current_amp_draw ≤ d.max_amp_draw) ∧
      0 ≤ (headroomBranch total d a r).1.carryover_adjustment := by
  simp only [headroomBranch]
  split_ifs with h1 h2 h3 h4 h5 h6 h7
  · exact ⟨⟨hcur0, hcur⟩, hcarry⟩
  · exact ⟨⟨hcur0, hcur⟩, hcarry⟩
  · exact ⟨⟨hcur0, hcur⟩, hcarry⟩
  · exact ⟨⟨hmn, hmx⟩, hcarry⟩
  · exact ⟨⟨hcur0, hcur⟩, hcarry⟩
  · refine ⟨⟨le_trans hmn hmx, le_refl _⟩, ?_⟩
    have htot := total_pos_of_admitted total d r hw0 hr h3 h4
    exact (applyIncrease_bounds _ _ hcarry
      (weighted_increase_nonneg total d a hw0 htot ha hcur)).1
  · have htot := total_pos_of_admitted total d r hw0 hr h3 h4
    have hai := applyIncrease_bounds _ _ hcarry
      (weighted_increase_nonneg total d a hw0 htot ha hcur)
    dsimp only at h7 ⊢
    exact ⟨⟨by linarith [hai.2.2.1], by omega⟩, hai.1⟩
  · exact ⟨⟨hcur0, hcur⟩, hcarry⟩

theorem overdrawBranch_bounds (total : ℤ) (d : Device) (a : ℤ)
    (hmn : 0 ≤ d.min_amp_draw) (hmx : d.min_amp_draw ≤ d.max_amp_draw)
    (hcur0 : 0 ≤ d.current_amp_draw) (hcur : d.current_amp_draw ≤ d.max_amp_draw)
    (hcarry : 0 ≤ d.carryover_adjustment)
    (hw0 : 0 ≤ d.weight) (hwt : d.weight ≤ total) :
    (0 ≤ (overdrawBranch total d a).1.current_amp_draw ∧
      (overdrawBranch total d a).1.current_amp_draw ≤ d.max_amp_draw) ∧
      0 ≤ (overdrawBranch total d a).1.carryover_adjustment := by
  simp only [overdrawBranch]
  split_ifs with h1 h2
  · have hb := shedTail_current_bounds { d with waited_cycles := 0 }
      (min |a| d.current_amp_draw) |a| hmn hmx
      (le_min (abs_nonneg a) hcur0) hcur
    exact ⟨hb, by simpa using hcarry⟩
  · exact ⟨⟨hcur0, hcur⟩, hcarry⟩
  · have htot : 0 < total := by omega
    have hb := shedTail_current_bounds { d with waited_cycles := d.waited_cycles + 1 }
      (shedP total d.weight |a|) |a| hmn hmx
      (shedP_nonneg total d.weight |a| htot hw0 hwt (abs_nonneg a)) hcur
    exact ⟨hb, by simpa using hcarry⟩

theorem continueEv_bounds (total : ℤ) (d : Device) (a : ℤ) (r : ℚ)
    (hmn : 0 ≤ d.min_amp_draw) (hmx : d.min_amp_draw ≤ d.max_amp_draw)
    (hcur0 : 0 ≤ d.current_amp_draw) (hcur : d.current_amp_draw ≤ d.max_amp_draw)
    (hcarry : 0 ≤ d.carryover_adjustment)
    (hw0 : 0 ≤ d.weight) (hwt : d.weight ≤ total) (hr : 0 ≤ r) :
    (0 ≤ (continueEv total d a r).1.current_amp_draw ∧
      (continueEv total d a r).1.current_amp_draw ≤ d.max_amp_draw) ∧
      0 ≤ (continueEv total d a r).1.carryover_adjustment := by
  simp only [continueEv]
  split_ifs with h1 h2
  · exact overdrawBranch_bounds total d a hmn hmx hcur0 hcur hcarry hw0 hwt
  · exact headroomBranch_bounds total d a r hmn hmx hcur0 hcur hcarry hw0 hr
      (not_lt.mp h1)
  · exact ⟨⟨hcur0, hcur⟩, hcarry⟩

@[simp]
theorem headroomDesired_heartbeat (d : Device) (now : ℚ) (a : ℤ) :
    headroomDesired { d with last_heartbeat := now } a = headroomDesired d a :=
  rfl

theorem applyIncrease_fst (c w : ℚ) :
    (applyIncrease c w).1 = (pymodf (w + c)).1 := rfl

theorem applyIncrease_snd (c w : ℚ) :
    (applyIncrease c w).2 = min 1 (pymodf (w + c)).2 := rfl

theorem headroomDesired_self (d : Device)
    (hmn : d.min_amp_draw ≤ d.current_amp_draw)
    (hmx : d.current_amp_draw ≤ d.max_amp_draw) :
    headroomDesired d 0 = d.current_amp_draw := by
  simp only [headroomDesired]
  split_ifs with h <;> omega

theorem applyIncrease_zero (c : ℚ) (h0 : 0 ≤ c) (h1 : c < 1) :
    applyIncrease c 0 = (c, 0) := by
  have hfl : ⌊(0 : ℚ) + c⌋ = 0 := by
    rw [zero_add]
    exact Int.floor_eq_zero_iff.mpr ⟨h0, h1⟩
  simp [applyIncrease, pymodf, h0, hfl]
  exact ⟨h1, by
    rw [show ⌊c⌋ = 0 from by rw [← zero_add c]; exact hfl]
    rfl⟩

theorem headroomBranch_admitted_drawing (total : ℤ) (d : Device) (a : ℤ)
    (r : ℚ)
    (h1 : headroomDesired d a ≠ 0)
    (h2 : |((d.desired_amp_draw : ℚ) - ((headroomDesired d a : ℤ) : ℚ))| /
      ((headroomDesired d a : ℤ) : ℚ) ≤ 1 / 10)
    (h3 : total ≠ 0)
    (h4 : r < (d.weight : ℚ) / (total : ℚ))
    (h5 : d.current_amp_draw ≠ 0) :
    (headroomBranch total d a r).2 = none ∧
    (headroomBranch total d a r).1.desired_amp_draw = headroomDesired d a ∧
    (headroomBranch total d a r).1.carryover_adjustment =
      (applyIncrease d.carryover_adjustment
        ((((headroomDesired d a : ℤ) : ℚ) - (d.current_amp_draw : ℚ)) *
          ((d.weight : ℚ) / (total : ℚ)))).1 ∧
    (headroomBranch total d a r).1.current_amp_draw =
      min d.max_amp_draw (d.current_amp_draw +
        (applyIncrease d.carryover_adjustment
          ((((headroomDesired d a : ℤ) : ℚ) - (d.current_amp_draw : ℚ)) *
            ((d.weight : ℚ) / (total : ℚ)))).2) := by
  simp only [headroomBranch]
  rw [if_neg h1, if_neg (not_lt.mpr h2), if_neg h3, if_pos h4, if_neg h5]
  split_ifs with h7
  · exact ⟨rfl, rfl, rfl, (min_eq_left (le_of_lt h7)).symm⟩
  · exact ⟨rfl, rfl, rfl, (min_eq_right (not_lt.mp h7)).symm⟩

theorem headroomBranch_balanced (total : ℤ) (d : Device) (r : ℚ)
    (h_pos : 0 < d.current_amp_draw)
    (hmn : d.min_amp_draw ≤ d.current_amp_draw)
    (hmx : d.current_amp_draw < d.max_amp_draw)
    (h_t : total ≠ 0)
    (hc0 : 0 ≤ d.carryover_adjustment) (hc1 : d.carryover_adjustment < 1) :
    (headroomBranch total d 0 r).2 = none ∧
    (headroomBranch total d 0 r).1.current_amp_draw = d.current_amp_draw ∧
    (headroomBranch total d 0 r).1.desired_amp_draw =
      d.current_amp_draw := by
  have hdes : headroomDesired d 0 = d.current_amp_draw :=
    headroomDesired_self d hmn (le_of_lt hmx)
  have hz : ((d.current_amp_draw : ℚ) - (d.current_amp_draw : ℚ)) *
      ((d.weight : ℚ) / (total : ℚ)) = 0 := by ring
  have hp : applyIncrease d.carryover_adjustment
      (((d.current_amp_draw : ℚ) - (d.current_amp_draw : ℚ)) *
        ((d.weight : ℚ) / (total : ℚ))) = (d.carryover_adjustment, 0) := by
    rw [hz]
    exact applyIncrease_zero d.carryover_adjustment hc0 hc1
  simp only [headroomBranch, hdes]
  rw [if_neg (by omega : ¬d.current_amp_draw = 0)]
  split_ifs with g1 g2 g3 g4 g5
  · exact ⟨rfl, rfl, rfl⟩
  · exact absurd g3 (by omega)
  · exact absurd g3 (by omega)
  · rw [hp] at g5
    simp at g5
    exact absurd g5 (by omega)
  · rw [hp]
    exact ⟨rfl, by simp, rfl⟩
  · exact ⟨rfl, rfl, rfl⟩

theorem set_draw_bootstrap (total : ℤ) (d : Device) (data : Option ℤ)
    (now r : ℚ) (h_on : d.is_on = true) (h_ev : d.is_ev = true)
    (h_al : d.always_draw_min = true) (h_cz : d.current_amp_draw = 0) :
    set_draw total d data now r =
      ({ d with
          last_heartbeat := now
          current_amp_draw := d.min_amp_draw
          desired_amp_draw := d.min_amp_draw }, none) := by
  rcases data with _ | amps <;> simp [set_draw, h_on, h_ev, h_al, h_cz]

theorem set_draw_ev_none_clamp (total : ℤ) (d : Device) (now r : ℚ)
    (h_on : d.is_on = true) (h_ev : d.is_ev = true)
    (h_boot : d.always_draw_min = false ∨ d.current_amp_draw ≠ 0)
    (hsc : d.safe_amp_draw < d.current_amp_draw) :
    set_draw total d none now r =
      continueEv total
        { d with
            last_heartbeat := now
            current_amp_draw := d.safe_amp_draw
            desired_amp_draw := d.safe_amp_draw } 0 r := by
  rcases h_boot with h | h <;> simp [set_draw, h_on, h_ev, h, hsc]

theorem set_draw_ev_none_noclamp (total : ℤ) (d : Device) (now r : ℚ)
    (h_on : d.is_on = true) (h_ev : d.is_ev = true)
    (h_boot : d.always_draw_min = false ∨ d.current_amp_draw ≠ 0)
    (hsc : ¬d.safe_amp_draw < d.current_amp_draw) :
    set_draw total d none now r =
      continueEv total { d with last_heartbeat := now }
        (if d.current_amp_draw ≠ d.safe_amp_draw then d.safe_amp_draw else 0)
        r := by
  rcases h_boot with h | h <;> simp [set_draw, h_on, h_ev, h, hsc]

theorem bool_eq_true_of_ne_false {b : Bool} (h : ¬b = false) : b = true := by
  cases b
  · exact absurd rfl h
  · rfl

theorem not_bootstrap_cases (d : Device)
    (h : ¬(d.always_draw_min = true ∧ d.current_amp_draw = 0)) :
    d.always_draw_min = false ∨ d.current_amp_draw ≠ 0 := by
  rcases not_and_or.mp h with h | h
  · exact Or.inl (by simpa using h)
  · exact Or.inr h

/-! Claim C4 -/

/-- C4 (amended): for a device with `0 ≤ minAmpDraw ≤ maxAmpDraw`,
`0 ≤ safeAmpDraw`, **`0 ≤ weight ≤ totalAmps`** (hypothesis the original
claim lacks), a lottery draw in `[0, 1]` and `carryoverAdjustment ≥ 0`,
`set_draw` preserves the invariant `0 ≤ currentAmpDraw ≤ maxAmpDraw`;
after an invocation with `isOn` false, `currentAmpDraw = desiredAmpDraw = 0`;
a non-EV device only ever holds `currentAmpDraw ∈ {0, minAmpDraw}`; and
`carryoverAdjustment` stays nonnegative. -/
theorem C4_invariant_preservation (total : ℤ) (d : Device) (data : Option ℤ)
    (now r : ℚ)
    (hmn : 0 ≤ d.min_amp_draw) (hmx : d.min_amp_draw ≤ d.max_amp_draw)
    (hsf : 0 ≤ d.safe_amp_draw) (hw0 : 0 ≤ d.weight) (hwt : d.weight ≤ total)
    (hr : 0 ≤ r)
    (hcur0 : 0 ≤ d.current_amp_draw)
    (hcur : d.current_amp_draw ≤ d.max_amp_draw)
    (hcarry : 0 ≤ d.carryover_adjustment)
    (hnev : d.is_ev = false →
      d.current_amp_draw = 0 ∨ d.current_amp_draw = d.min_amp_draw) :
    (0 ≤ (set_draw total d data now r).1.current_amp_draw ∧
      (set_draw total d data now r).1.current_amp_draw ≤ d.max_amp_draw) ∧
    (d.is_on = false → (set_draw total d data now r).1.current_amp_draw = 0 ∧
      (set_draw total d data now r).1.desired_amp_draw = 0) ∧
    (d.is_ev = false → (set_draw total d data now r).1.current_amp_draw = 0 ∨
      (set_draw total d data now r).1.current_amp_draw = d.min_amp_draw) ∧
    0 ≤ (set_draw total d data now r).1.carryover_adjustment := by
  by_cases h_on : d.is_on = false
  · rw [set_draw_off total d data now r h_on]
    exact ⟨⟨le_refl 0, show (0 : ℤ) ≤ d.max_amp_draw by omega⟩,
      fun _ => ⟨rfl, rfl⟩, fun _ => Or.inl rfl, hcarry⟩
  · have h_on' : d.is_on = true := bool_eq_true_of_ne_false h_on
    by_cases h_ev : d.is_ev = true
    · by_cases h_boot : d.always_draw_min = true ∧ d.current_amp_draw = 0
      · have hrw : set_draw total d data now r =
            ({ d with
                last_heartbeat := now
                current_amp_draw := d.min_amp_draw
                desired_amp_draw := d.min_amp_draw }, none) := by
          rcases data with _ | amps <;>
            simp [set_draw, h_on', h_ev, h_boot.1, h_boot.2]
        rw [hrw]
        exact ⟨⟨hmn, hmx⟩, fun hf => absurd h_on' (by simp [hf]),
          fun hf => absurd h_ev (by simp [hf]), hcarry⟩
      · have h_boot' := not_bootstrap_cases d h_boot
        rcases data with _ | amps
        · by_cases hsc : d.safe_amp_draw < d.current_amp_draw
          · have hrw : set_draw total d none now r =
                continueEv total
                  { d with
                      last_heartbeat := now
                      current_amp_draw := d.safe_amp_draw
                      desired_amp_draw := d.safe_amp_draw } 0 r := by
              rcases h_boot' with h | h <;>
                simp [set_draw, h_on', h_ev, h, hsc]
            rw [hrw]
            have hb := continueEv_bounds total
              { d with
                  last_heartbeat := now
                  current_amp_draw := d.safe_amp_draw
                  desired_amp_draw := d.safe_amp_draw } 0 r
              hmn hmx hsf (by dsimp only; omega) hcarry hw0 hwt hr
            exact ⟨hb.1, fun hf => absurd h_on' (by simp [hf]),
              fun hf => absurd h_ev (by simp [hf]), hb.2⟩
          · have hrw : set_draw total d none now r =
                continueEv total { d with last_heartbeat := now }
                  (if d.current_amp_draw ≠ d.safe_amp_draw
                    then d.safe_amp_draw else 0) r := by
              rcases h_boot' with h | h <;>
                simp [set_draw, h_on', h_ev, h, hsc]
            rw [hrw]
            have hb := continueEv_bounds total { d with last_heartbeat := now }
              (if d.current_amp_draw ≠ d.safe_amp_draw
                then d.safe_amp_draw else 0) r
              hmn hmx hcur0 hcur hcarry hw0 hwt hr
            exact ⟨hb.1, fun hf => absurd h_on' (by simp [hf]),
              fun hf => absurd h_ev (by simp [hf]), hb.2⟩
        · rw [set_draw_ev_data total amps d now r h_on' h_ev h_boot']
          have hb := continueEv_bounds total { d with last_heartbeat := now }
            (total - amps) r hmn hmx hcur0 hcur hcarry hw0 hwt hr
          exact ⟨hb.1, fun hf => absurd h_on' (by simp [hf]),
            fun hf => absurd h_ev (by simp [hf]), hb.2⟩
    · have h_ev' : d.is_ev = false := by
        cases h : d.is_ev
        · rfl
        · exact absurd h h_ev
      by_cases hz : d.current_amp_draw = 0
      · have hrw : set_draw total d data now r =
            ({ d with
                current_amp_draw := d.min_amp_draw
                desired_amp_draw := d.min_amp_draw }, none) := by
          simp [set_draw, h_on', h_ev', hz]
        rw [hrw]
        exact ⟨⟨hmn, hmx⟩, fun hf => absurd h_on' (by simp [hf]),
          fun _ => Or.inr rfl, hcarry⟩
      · have hrw : set_draw total d data now r = (d, none) := by
          simp [set_draw, h_on', h_ev', hz]
        rw [hrw]
        exact ⟨⟨hcur0, hcur⟩, fun hf => absurd h_on' (by simp [hf]),
          fun _ => hnev h_ev', hcarry⟩

/-- C4 witness: the preservation theorem applied to a concrete EV
(min 6, max 48, safe 6, weight 10, current 10) in a system of 100 A with a
meter reading of 90 A. -/
theorem C4_witness :
    (0 ≤ (set_draw 100 ⟨6, 6, 48, 10, true, false, 10, 10, true, true, 0, 0, 0⟩
        (some 90) 0 1).1.current_amp_draw ∧
      (set_draw 100 ⟨6, 6, 48, 10, true, false, 10, 10, true, true, 0, 0, 0⟩
        (some 90) 0 1).1.current_amp_draw ≤
        (⟨6, 6, 48, 10, true, false, 10, 10, true, true, 0, 0, 0⟩ :
          Device).max_amp_draw) ∧
    ((⟨6, 6, 48, 10, true, false, 10, 10, true, true, 0, 0, 0⟩ :
        Device).is_on = false →
      (set_draw 100 ⟨6, 6, 48, 10, true, false, 10, 10, true, true, 0, 0, 0⟩
        (some 90) 0 1).1.current_amp_draw = 0 ∧
      (set_draw 100 ⟨6, 6, 48, 10, true, false, 10, 10, true, true, 0, 0, 0⟩
        (some 90) 0 1).1.desired_amp_draw = 0) ∧
    ((⟨6, 6, 48, 10, true, false, 10, 10, true, true, 0, 0, 0⟩ :
        Device).is_ev = false →
      (set_draw 100 ⟨6, 6, 48, 10, true, false, 10, 10, true, true, 0, 0, 0⟩
        (some 90) 0 1).1.current_amp_draw = 0 ∨
      (set_draw 100 ⟨6, 6, 48, 10, true, false, 10, 10, true, true, 0, 0, 0⟩
        (some 90) 0 1).1.current_amp_draw =
        (⟨6, 6, 48, 10, true, false, 10, 10, true, true, 0, 0, 0⟩ :
          Device).min_amp_draw) ∧
    0 ≤ (set_draw 100 ⟨6, 6, 48, 10, true, false, 10, 10, true, true, 0, 0, 0⟩
        (some 90) 0 1).1.carryover_adjustment :=
  C4_invariant_preservation 100
    ⟨6, 6, 48, 10, true, false, 10, 10, true, true, 0, 0, 0⟩ (some 90) 0 1
    (by norm_num) (by norm_num) (by norm_num) (by norm_num) (by norm_num)
    (by norm_num) (by norm_num) (by norm_num) (by norm_num) (by decide)

/-- C4 counterexample: the claim as stated (without a `weight ≤ totalAmps`
hypothesis) is false: an on EV with `min 0 ≤ max 10`, `safe 0`, `weight 200`
in a 100 A system at `current = max = 10`, receiving a reading of 110 A,
computes a negative weighted shed and ends at `current = 20 > max = 10`. -/
theorem C4_counterexample :
    (set_draw 100 ⟨0, 0, 10, 200, true, false, 10, 0, true, true, 0, 0, 0⟩
        (some 110) 0 0).1.current_amp_draw = 20 ∧
      ¬((set_draw 100 ⟨0, 0, 10, 200, true, false, 10, 0, true, true, 0, 0, 0⟩
        (some 110) 0 0).1.current_amp_draw ≤
        (⟨0, 0, 10, 200, true, false, 10, 0, true, true, 0, 0, 0⟩ :
          Device).max_amp_draw) := by
  have hc : ⌈(-10 : ℚ)⌉ = (-10 : ℤ) := by
    rw [show ((-10 : ℚ)) = ((-10 : ℤ) : ℚ) by norm_num]
    exact Int.ceil_intCast _
  constructor
  · norm_num [set_draw, continueEv, overdrawBranch, shedTail, shedP, pymodf, hc]
  · norm_num [set_draw, continueEv, overdrawBranch, shedTail, shedP, pymodf, hc]

theorem set_draw_overdraw_partial_step (total amps : ℤ) (d : Device)
    (now r : ℚ)
    (h_on : d.is_on = true) (h_ev : d.is_ev = true)
    (h_al : d.always_draw_min = false)
    (h_avail : total - amps < 0)
    (h_w : d.waited_cycles ≤ 3) (h_t : total ≠ 0)
    (h_noc : d.min_amp_draw ≤
      d.current_amp_draw - shedP total d.weight (amps - total)) :
    set_draw total d (some amps) now r =
      ({ d with
          last_heartbeat := now
          waited_cycles := d.waited_cycles + 1
          desired_amp_draw := max 0 (d.current_amp_draw - (amps - total))
          current_amp_draw :=
            d.current_amp_draw - shedP total d.weight (amps - total) },
        none) := by
  rw [set_draw_ev_data total amps d now r h_on h_ev (Or.inl h_al)]
  rw [continueEv_overdraw_weighted total { d with last_heartbeat := now }
    (total - amps) r h_avail h_w h_t]
  rw [neg_sub]
  dsimp only
  rw [shedTail_no_collapse
    { d with last_heartbeat := now, waited_cycles := d.waited_cycles + 1 }
    (shedP total d.weight (amps - total)) (amps - total) h_noc]
  simp [h_al]

theorem set_draw_overdraw_full_step (total amps : ℤ) (d : Device)
    (now r : ℚ)
    (h_on : d.is_on = true) (h_ev : d.is_ev = true)
    (h_al : d.always_draw_min = false)
    (h_avail : total - amps < 0)
    (h_w : 3 < d.waited_cycles)
    (h_le : amps - total ≤ d.current_amp_draw)
    (h_noc : d.min_amp_draw ≤ d.current_amp_draw - (amps - total)) :
    set_draw total d (some amps) now r =
      ({ d with
          last_heartbeat := now
          waited_cycles := 0
          desired_amp_draw := max 0 (d.current_amp_draw - (amps - total))
          current_amp_draw := d.current_amp_draw - (amps - total) },
        none) := by
  rw [set_draw_ev_data total amps d now r h_on h_ev (Or.inl h_al)]
  rw [continueEv_overdraw_full total { d with last_heartbeat := now }
    (total - amps) r h_avail h_w]
  rw [neg_sub]
  dsimp only
  rw [show min (amps - total) d.current_amp_draw = amps - total from
    min_eq_left h_le]
  rw [shedTail_no_collapse
    { d with last_heartbeat := now, waited_cycles := 0 }
    (amps - total) (amps - total) h_noc]
  simp [h_al]

/-! Claim C1 -/

/-- C1 (amended): for an on EV with `alwaysDrawMin` false under sustained
overdraw (the same reading with `availableAmps < 0` every invocation)
starting from `waitedCycles = 0`, provided the partial sheds never push the
draw below `minAmpDraw`: each of the FIRST FOUR invocations sheds only the
weighted fraction `⌊overdraw × (1 − weight/totalAmps)⌋` and increments
`waitedCycles` (to 1, 2, 3, 4); the full compliant shed
(`shedAmount = min(overdraw, currentAmpDraw)`, `waitedCycles` reset to 0) is
performed only on the FIFTH such invocation — within 5 invocations, not
within 4 as claimed. -/
theorem C1_full_shed_on_fifth (total amps : ℤ) (d : Device) (now r : ℚ)
    (h_on : d.is_on = true) (h_ev : d.is_ev = true)
    (h_al : d.always_draw_min = false)
    (h_w0 : d.waited_cycles = 0)
    (h_t : total ≠ 0)
    (h_avail : total - amps < 0)
    (hmn : 0 ≤ d.min_amp_draw)
    (hps : 0 ≤ shedP total d.weight (amps - total))
    (h_noc : d.min_amp_draw ≤ d.current_amp_draw -
      4 * shedP total d.weight (amps - total) - (amps - total)) :
    (shedRun total amps now r d 1).waited_cycles = 1 ∧
    (shedRun total amps now r d 1).current_amp_draw =
      d.current_amp_draw - shedP total d.weight (amps - total) ∧
    (shedRun total amps now r d 2).waited_cycles = 2 ∧
    (shedRun total amps now r d 2).current_amp_draw =
      d.current_amp_draw - 2 * shedP total d.weight (amps - total) ∧
    (shedRun total amps now r d 3).waited_cycles = 3 ∧
    (shedRun total amps now r d 3).current_amp_draw =
      d.current_amp_draw - 3 * shedP total d.weight (amps - total) ∧
    (shedRun total amps now r d 4).waited_cycles = 4 ∧
    (shedRun total amps now r d 4).current_amp_draw =
      d.current_amp_draw - 4 * shedP total d.weight (amps - total) ∧
    (shedRun total amps now r d 5).waited_cycles = 0 ∧
    (shedRun total amps now r d 5).current_amp_draw =
      d.current_amp_draw - 4 * shedP total d.weight (amps - total) -
        (amps - total) := by
  have s1 := set_draw_overdraw_partial_step total amps d now r
    h_on h_ev h_al h_avail (by omega) h_t (by omega)
  rw [h_w0] at s1
  have e1 : shedRun total amps now r d 1 =
      { d with
          last_heartbeat := now
          waited_cycles := 1
          desired_amp_draw := max 0 (d.current_amp_draw - (amps - total))
          current_amp_draw :=
            d.current_amp_draw - shedP total d.weight (amps - total) } := by
    change (set_draw total (shedRun total amps now r d 0)
      (some amps) now r).1 = _
    rw [show shedRun total amps now r d 0 = d from rfl, s1]
    rfl
  have s2 := set_draw_overdraw_partial_step total amps
    { d with
        last_heartbeat := now
        waited_cycles := 1
        desired_amp_draw := max 0 (d.current_amp_draw - (amps - total))
        current_amp_draw :=
          d.current_amp_draw - shedP total d.weight (amps - total) } now r
    h_on h_ev h_al h_avail (show (1 : ℤ) ≤ 3 by norm_num) h_t
    (show d.min_amp_draw ≤ d.current_amp_draw -
      shedP total d.weight (amps - total) -
      shedP total d.weight (amps - total) by omega)
  have e2 : shedRun total amps now r d 2 =
      { d with
          last_heartbeat := now
          waited_cycles := 2
          desired_amp_draw := max 0 (d.current_amp_draw -
            shedP total d.weight (amps - total) - (amps - total))
          current_amp_draw := d.current_amp_draw -
            shedP total d.weight (amps - total) -
            shedP total d.weight (amps - total) } := by
    change (set_draw total (shedRun total amps now r d 1)
      (some amps) now r).1 = _
    rw [e1, s2]
    rfl
  have s3 := set_draw_overdraw_partial_step total amps
    { d with
        last_heartbeat := now
        waited_cycles := 2
        desired_amp_draw := max 0 (d.current_amp_draw -
          shedP total d.weight (amps - total) - (amps - total))
        current_amp_draw := d.current_amp_draw -
          shedP total d.weight (amps - total) -
          shedP total d.weight (amps - total) } now r
    h_on h_ev h_al h_avail (show (2 : ℤ) ≤ 3 by norm_num) h_t
    (show d.min_amp_draw ≤ d.current_amp_draw -
      shedP total d.weight (amps - total) -
      shedP total d.weight (amps - total) -
      shedP total d.weight (amps - total) by omega)
  have e3 : shedRun total amps now r d 3 =
      { d with
          last_heartbeat := now
          waited_cycles := 3
          desired_amp_draw := max 0 (d.current_amp_draw -
            shedP total d.weight (amps - total) -
            shedP total d.weight (amps - total) - (amps - total))
          current_amp_draw := d.current_amp_draw -
            shedP total d.weight (amps - total) -
            shedP total d.weight (amps - total) -
            shedP total d.weight (amps - total) } := by
    change (set_draw total (shedRun total amps now r d 2)
      (some amps) now r).1 = _
    rw [e2, s3]
    rfl
  have s4 := set_draw_overdraw_partial_step total amps
    { d with
        last_heartbeat := now
        waited_cycles := 3
        desired_amp_draw := max 0 (d.current_amp_draw -
          shedP total d.weight (amps - total) -
          shedP total d.weight (amps - total) - (amps - total))
        current_amp_draw := d.current_amp_draw -
          shedP total d.weight (amps - total) -
          shedP total d.weight (amps - total) -
          shedP total d.weight (amps - total) } now r
    h_on h_ev h_al h_avail (show (3 : ℤ) ≤ 3 by norm_num) h_t
    (show d.min_amp_draw ≤ d.current_amp_draw -
      shedP total d.weight (amps - total) -
      shedP total d.weight (amps - total) -
      shedP total d.weight (amps - total) -
      shedP total d.weight (amps - total) by omega)
  have e4 : shedRun total amps now r d 4 =
      { d with
          last_heartbeat := now
          waited_cycles := 4
          desired_amp_draw := max 0 (d.current_amp_draw -
            shedP total d.weight (amps - total) -
            shedP total d.weight (amps - total) -
            shedP total d.weight (amps - total) - (amps - total))
          current_amp_draw := d.current_amp_draw -
            shedP total d.weight (amps - total) -
            shedP total d.weight (amps - total) -
            shedP total d.weight (amps - total) -
            shedP total d.weight (amps - total) } := by
    change (set_draw total (shedRun total amps now r d 3)
      (some amps) now r).1 = _
    rw [e3, s4]
    rfl
  have s5 := set_draw_overdraw_full_step total amps
    { d with
        last_heartbeat := now
        waited_cycles := 4
        desired_amp_draw := max 0 (d.current_amp_draw -
          shedP total d.weight (amps - total) -
          shedP total d.weight (amps - total) -
          shedP total d.weight (amps - total) - (amps - total))
        current_amp_draw := d.current_amp_draw -
          shedP total d.weight (amps - total) -
          shedP total d.weight (amps - total) -
          shedP total d.weight (amps - total) -
          shedP total d.weight (amps - total) } now r
    h_on h_ev h_al h_avail (show (3 : ℤ) < 4 by norm_num)
    (show amps - total ≤ d.current_amp_draw -
      shedP total d.weight (amps - total) -
      shedP total d.weight (amps - total) -
      shedP total d.weight (amps - total) -
      shedP total d.weight (amps - total) by omega)
    (show d.min_amp_draw ≤ d.current_amp_draw -
      shedP total d.weight (amps - total) -
      shedP total d.weight (amps - total) -
      shedP total d.weight (amps - total) -
      shedP total d.weight (amps - total) - (amps - total) by omega)
  have e5 : shedRun total amps now r d 5 =
      { d with
          last_heartbeat := now
          waited_cycles := 0
          desired_amp_draw := max 0 (d.current_amp_draw -
            shedP total d.weight (amps - total) -
            shedP total d.weight (amps - total) -
            shedP total d.weight (amps - total) -
            shedP total d.weight (amps - total) - (amps - total))
          current_amp_draw := d.current_amp_draw -
            shedP total d.weight (amps - total) -
            shedP total d.weight (amps - total) -
            shedP total d.weight (amps - total) -
            shedP total d.weight (amps - total) - (amps - total) } := by
    change (set_draw total (shedRun total amps now r d 4)
      (some amps) now r).1 = _
    rw [e4, s5]
  refine ⟨?_, ?_, ?_, ?_, ?_, ?_, ?_, ?_, ?_, ?_⟩
  · rw [e1]
  · rw [e1]
  · rw [e2]
  · rw [e2]
    show d.current_amp_draw - shedP total d.weight (amps - total) -
      shedP total d.weight (amps - total) = _
    omega
  · rw [e3]
  · rw [e3]
    show d.current_amp_draw - shedP total d.weight (amps - total) -
      shedP total d.weight (amps - total) -
      shedP total d.weight (amps - total) = _
    omega
  · rw [e4]
  · rw [e4]
    show d.current_amp_draw - shedP total d.weight (amps - total) -
      shedP total d.weight (amps - total) -
      shedP total d.weight (amps - total) -
      shedP total d.weight (amps - total) = _
    omega
  · rw [e5]
  · rw [e5]
    show d.current_amp_draw - shedP total d.weight (amps - total) -
      shedP total d.weight (amps - total) -
      shedP total d.weight (amps - total) -
      shedP total d.weight (amps - total) - (amps - total) = _
    omega

/-- C1 witness: the five-cycle theorem applied to a concrete on EV
(weight 10, current 50 A) in a 100 A system reading 110 A every cycle
(overdraw 10 A, partial shed `⌊10 × 9/10⌋ = 9` A per cycle). -/
theorem C1_witness :
    (shedRun 100 110 0 0
        ⟨0, 6, 48, 10, true, false, 50, 0, true, true, 0, 0, 0⟩
        1).waited_cycles = 1 ∧
    (shedRun 100 110 0 0
        ⟨0, 6, 48, 10, true, false, 50, 0, true, true, 0, 0, 0⟩
        1).current_amp_draw =
      (⟨0, 6, 48, 10, true, false, 50, 0, true, true, 0, 0, 0⟩ :
        Device).current_amp_draw - shedP 100
        (⟨0, 6, 48, 10, true, false, 50, 0, true, true, 0, 0, 0⟩ :
          Device).weight (110 - 100) ∧
    (shedRun 100 110 0 0
        ⟨0, 6, 48, 10, true, false, 50, 0, true, true, 0, 0, 0⟩
        2).waited_cycles = 2 ∧
    (shedRun 100 110 0 0
        ⟨0, 6, 48, 10, true, false, 50, 0, true, true, 0, 0, 0⟩
        2).current_amp_draw =
      (⟨0, 6, 48, 10, true, false, 50, 0, true, true, 0, 0, 0⟩ :
        Device).current_amp_draw - 2 * shedP 100
        (⟨0, 6, 48, 10, true, false, 50, 0, true, true, 0, 0, 0⟩ :
          Device).weight (110 - 100) ∧
    (shedRun 100 110 0 0
        ⟨0, 6, 48, 10, true, false, 50, 0, true, true, 0, 0, 0⟩
        3).waited_cycles = 3 ∧
    (shedRun 100 110 0 0
        ⟨0, 6, 48, 10, true, false, 50, 0, true, true, 0, 0, 0⟩
        3).current_amp_draw =
      (⟨0, 6, 48, 10, true, false, 50, 0, true, true, 0, 0, 0⟩ :
        Device).current_amp_draw - 3 * shedP 100
        (⟨0, 6, 48, 10, true, false, 50, 0, true, true, 0, 0, 0⟩ :
          Device).weight (110 - 100) ∧
    (shedRun 100 110 0 0
        ⟨0, 6, 48, 10, true, false, 50, 0, true, true, 0, 0, 0⟩
        4).waited_cycles = 4 ∧
    (shedRun 100 110 0 0
        ⟨0, 6, 48, 10, true, false, 50, 0, true, true, 0, 0, 0⟩
        4).current_amp_draw =
      (⟨0, 6, 48, 10, true, false, 50, 0, true, true, 0, 0, 0⟩ :
        Device).current_amp_draw - 4 * shedP 100
        (⟨0, 6, 48, 10, true, false, 50, 0, true, true, 0, 0, 0⟩ :
          Device).weight (110 - 100) ∧
    (shedRun 100 110 0 0
        ⟨0, 6, 48, 10, true, false, 50, 0, true, true, 0, 0, 0⟩
        5).waited_cycles = 0 ∧
    (shedRun 100 110 0 0
        ⟨0, 6, 48, 10, true, false, 50, 0, true, true, 0, 0, 0⟩
        5).current_amp_draw =
      (⟨0, 6, 48, 10, true, false, 50, 0, true, true, 0, 0, 0⟩ :
        Device).current_amp_draw - 4 * shedP 100
        (⟨0, 6, 48, 10, true, false, 50, 0, true, true, 0, 0, 0⟩ :
          Device).weight (110 - 100) - (110 - 100) :=
  C1_full_shed_on_fifth 100 110
    ⟨0, 6, 48, 10, true, false, 50, 0, true, true, 0, 0, 0⟩ 0 0
    rfl rfl rfl rfl (by norm_num) (by norm_num) (by norm_num)
    (by norm_num [shedP, pymodf]) (by norm_num [shedP, pymodf])

/-- C1 counterexample: the claim as stated ("full compliant shed within
4 invocations") is false: under a sustained 110 A reading in a 100 A system
(overdraw 10), an on EV at 50 A with weight 10 sheds the weighted 9 A on
each of the first four invocations, `waitedCycles` climbing 1, 2, 3, 4 —
never reset — and only the fifth invocation performs the full shed and
reset. -/
theorem C1_counterexample :
    (shedRun 100 110 0 0
        ⟨0, 6, 48, 10, true, false, 50, 0, true, true, 0, 0, 0⟩
        1).waited_cycles = 1 ∧
    (shedRun 100 110 0 0
        ⟨0, 6, 48, 10, true, false, 50, 0, true, true, 0, 0, 0⟩
        2).waited_cycles = 2 ∧
    (shedRun 100 110 0 0
        ⟨0, 6, 48, 10, true, false, 50, 0, true, true, 0, 0, 0⟩
        3).waited_cycles = 3 ∧
    (shedRun 100 110 0 0
        ⟨0, 6, 48, 10, true, false, 50, 0, true, true, 0, 0, 0⟩
        4).waited_cycles = 4 ∧
    (shedRun 100 110 0 0
        ⟨0, 6, 48, 10, true, false, 50, 0, true, true, 0, 0, 0⟩
        4).current_amp_draw = 14 := by
  refine ⟨?_, ?_, ?_, ?_, ?_⟩ <;>
    norm_num [shedRun, set_draw, continueEv, overdrawBranch, shedTail,
      shedP, pymodf]

/-! Claim C3 -/

/-- C3 (amended): carryover conservation holds for SUB-UNIT weighted
increases (each raw weighted increase in `[0, 1)`, carryover starting in
`[0, 1)`): the sum of applied integer increases plus the final
`carryoverAdjustment` equals the sum of the raw weighted increases plus the
initial `carryoverAdjustment`.  (For a step whose integer part exceeds 1 the
code applies only `min(1, ...)` and discards the excess, so the unrestricted
claim is false.) -/
theorem C3_carry_conservation (ws : List ℚ) :
    ∀ c0 : ℚ, 0 ≤ c0 → c0 < 1 → (∀ w ∈ ws, 0 ≤ w ∧ w < 1) →
      ((runIncreases c0 ws).2 : ℚ) + (runIncreases c0 ws).1 =
        ws.sum + c0 := by
  induction ws with
  | nil =>
    intro c0 _ _ _
    simp [runIncreases]
  | cons w ws ih =>
    intro c0 hc0 hc1 hw
    have hw0 := hw w (List.mem_cons_self w ws)
    have hx : (0 : ℚ) ≤ w + c0 := by linarith [hw0.1]
    have hx2 : w + c0 < 2 := by linarith [hw0.2]
    have hfl0 : 0 ≤ ⌊w + c0⌋ := Int.floor_nonneg.mpr hx
    have hfl2 : ⌊w + c0⌋ < 2 := Int.floor_lt.mpr (by exact_mod_cast hx2)
    have hap : applyIncrease c0 w =
        ((w + c0) - (⌊w + c0⌋ : ℚ), ⌊w + c0⌋) := by
      simp only [applyIncrease, pymodf_of_nonneg (w + c0) hx, Prod.mk.injEq]
      refine ⟨by trivial, by omega⟩
    have hrec := ih ((w + c0) - (⌊w + c0⌋ : ℚ))
      (by linarith [Int.floor_le (w + c0)])
      (by linarith [Int.lt_floor_add_one (w + c0)])
      (fun x hxm => hw x (List.mem_cons_of_mem w hxm))
    simp only [runIncreases, hap, List.sum_cons]
    push_cast
    push_cast at hrec
    linarith [hrec]

/-- C3 witness: conservation applied to the concrete sub-unit sequence
`[1/2, 3/4]` from carryover 0: one unit is applied and `1/4` is retained,
matching the raw total `5/4`. -/
theorem C3_witness :
    ((runIncreases 0 [1/2, 3/4]).2 : ℚ) + (runIncreases 0 [1/2, 3/4]).1 =
      ([1/2, 3/4] : List ℚ).sum + 0 :=
  C3_carry_conservation [1/2, 3/4] 0 (by norm_num) (by norm_num)
    (by
      intro w hw
      simp only [List.mem_cons, List.mem_singleton, List.not_mem_nil,
        or_false] at hw
      rcases hw with h | h <;> subst h <;> constructor <;> norm_num)

/-- C3 counterexample: the claim as stated (over ALL admitted
weighted-increase steps) is false: a single admitted step with raw weighted
increase `(44 − 20) × 50/100 = 12` applies only 1 unit (current 20 → 21) and
retains carryover 0, so applied-plus-carryover `1` differs from
raw-plus-initial `12`. -/
theorem C3_counterexample :
    (set_draw 100 ⟨6, 6, 48, 50, true, false, 20, 44, true, true, 0, 0, 0⟩
        (some 76) 0 0).1.current_amp_draw = 21 ∧
    (set_draw 100 ⟨6, 6, 48, 50, true, false, 20, 44, true, true, 0, 0, 0⟩
        (some 76) 0 0).1.carryover_adjustment = 0 ∧
    ((21 - 20 : ℚ) + 0 ≠ ((44 : ℚ) - 20) * (50 / 100) + 0) := by
  refine ⟨?_, ?_, by norm_num⟩ <;>
    norm_num [set_draw, continueEv, headroomBranch, headroomDesired,
      applyIncrease, pymodf]

/-! Claim C2 -/

/-- C2 (amended): in the headroom branch, for an admitted on EV already
drawing power, the integer part of `weightedIncrease + carryoverAdjustment`
is NOT applied in full: `min(1, integer part)` is applied — exactly 1 unit
whenever the integer part is positive, never more — the fractional remainder
is kept in `carryoverAdjustment` (any integer excess beyond 1 is discarded),
and the result is clamped to `maxAmpDraw`. -/
theorem C2_increase_capped_at_one (total amps : ℤ) (d : Device) (now r : ℚ)
    (h_on : d.is_on = true) (h_ev : d.is_ev = true)
    (h_pos : 0 < d.current_amp_draw)
    (h_avail : 0 ≤ total - amps)
    (h_max : d.current_amp_draw < d.max_amp_draw)
    (h1 : headroomDesired d (total - amps) ≠ 0)
    (h2 : |((d.desired_amp_draw : ℚ) -
        ((headroomDesired d (total - amps) : ℤ) : ℚ))| /
      ((headroomDesired d (total - amps) : ℤ) : ℚ) ≤ 1 / 10)
    (h3 : total ≠ 0)
    (h4 : r < (d.weight : ℚ) / (total : ℚ)) :
    (set_draw total d (some amps) now r).2 = none ∧
    (set_draw total d (some amps) now r).1.desired_amp_draw =
      headroomDesired d (total - amps) ∧
    (set_draw total d (some amps) now r).1.current_amp_draw =
      min d.max_amp_draw (d.current_amp_draw +
        min 1 (pymodf ((((headroomDesired d (total - amps) : ℤ) : ℚ) -
          (d.current_amp_draw : ℚ)) * ((d.weight : ℚ) / (total : ℚ)) +
          d.carryover_adjustment)).2) ∧
    (set_draw total d (some amps) now r).1.carryover_adjustment =
      (pymodf ((((headroomDesired d (total - amps) : ℤ) : ℚ) -
        (d.current_amp_draw : ℚ)) * ((d.weight : ℚ) / (total : ℚ)) +
        d.carryover_adjustment)).1 := by
  rw [set_draw_ev_data total amps d now r h_on h_ev (Or.inr (by omega))]
  simp only [continueEv]
  rw [if_neg (not_lt.mpr h_avail),
    if_pos (⟨h_avail, h_max⟩ : (0 : ℤ) ≤ total - amps ∧
      ({ d with last_heartbeat := now } : Device).current_amp_draw <
        ({ d with last_heartbeat := now } : Device).max_amp_draw)]
  have hb := headroomBranch_admitted_drawing total
    { d with last_heartbeat := now } (total - amps) r h1 h2 h3 h4
    (show d.current_amp_draw ≠ 0 by omega)
  simp only [headroomDesired_heartbeat, applyIncrease_fst, applyIncrease_snd]
    at hb
  exact ⟨hb.1, hb.2.1, hb.2.2.2, hb.2.2.1⟩

/-- C2 witness: the capped-increase theorem applied to a concrete on EV
(min 6, max 48, weight 50, current 10, previous desired 48) in a 100 A
system with a reading of 62 A (headroom 38 A, admitted by lottery draw 0). -/
theorem C2_witness :
    (set_draw 100 ⟨6, 6, 48, 50, true, false, 10, 48, true, true, 0, 0, 0⟩
        (some 62) 0 0).2 = none ∧
    (set_draw 100 ⟨6, 6, 48, 50, true, false, 10, 48, true, true, 0, 0, 0⟩
        (some 62) 0 0).1.desired_amp_draw =
      headroomDesired ⟨6, 6, 48, 50, true, false, 10, 48, true, true, 0, 0, 0⟩
        (100 - 62) ∧
    (set_draw 100 ⟨6, 6, 48, 50, true, false, 10, 48, true, true, 0, 0, 0⟩
        (some 62) 0 0).1.current_amp_draw =
      min (⟨6, 6, 48, 50, true, false, 10, 48, true, true, 0, 0, 0⟩ :
          Device).max_amp_draw
        ((⟨6, 6, 48, 50, true, false, 10, 48, true, true, 0, 0, 0⟩ :
          Device).current_amp_draw +
        min 1 (pymodf ((((headroomDesired
            ⟨6, 6, 48, 50, true, false, 10, 48, true, true, 0, 0, 0⟩
            (100 - 62) : ℤ) : ℚ) -
          ((⟨6, 6, 48, 50, true, false, 10, 48, true, true, 0, 0, 0⟩ :
            Device).current_amp_draw : ℚ)) *
          (((⟨6, 6, 48, 50, true, false, 10, 48, true, true, 0, 0, 0⟩ :
            Device).weight : ℚ) / ((100 : ℤ) : ℚ)) +
          (⟨6, 6, 48, 50, true, false, 10, 48, true, true, 0, 0, 0⟩ :
            Device).carryover_adjustment)).2) ∧
    (set_draw 100 ⟨6, 6, 48, 50, true, false, 10, 48, true, true, 0, 0, 0⟩
        (some 62) 0 0).1.carryover_adjustment =
      (pymodf ((((headroomDesired
          ⟨6, 6, 48, 50, true, false, 10, 48, true, true, 0, 0, 0⟩
          (100 - 62) : ℤ) : ℚ) -
        ((⟨6, 6, 48, 50, true, false, 10, 48, true, true, 0, 0, 0⟩ :
          Device).current_amp_draw : ℚ)) *
        (((⟨6, 6, 48, 50, true, false, 10, 48, true, true, 0, 0, 0⟩ :
          Device).weight : ℚ) / ((100 : ℤ) : ℚ)) +
        (⟨6, 6, 48, 50, true, false, 10, 48, true, true, 0, 0, 0⟩ :
          Device).carryover_adjustment)).1 :=
  C2_increase_capped_at_one 100 62
    ⟨6, 6, 48, 50, true, false, 10, 48, true, true, 0, 0, 0⟩ 0 0
    rfl rfl (by norm_num) (by norm_num) (by norm_num)
    (by norm_num [headroomDesired]) (by norm_num [headroomDesired])
    (by norm_num) (by norm_num)

/-- C2 counterexample: the claim as stated is false: with weighted
increase `(48 − 10) × 50/100 = 19` (integer part 19, carryover 0) the code
applies only `min(1, 19) = 1` unit — `currentAmpDraw` goes from 10 to 11,
not to the fully-applied `10 + 19 = 29`. -/
theorem C2_counterexample :
    (pymodf (((48 : ℚ) - 10) * (50 / 100) + 0)).2 = 19 ∧
    (set_draw 100 ⟨6, 6, 48, 50, true, false, 10, 48, true, true, 0, 0, 0⟩
        (some 62) 0 0).1.current_amp_draw = 11 ∧
    (11 : ℤ) ≠ 10 + 19 := by
  refine ⟨by norm_num [pymodf], ?_, by norm_num⟩
  norm_num [set_draw, continueEv, headroomBranch, headroomDesired,
    applyIncrease, pymodf]

/-! Claim C5 -/

/-- C5 (amended): for an on EV past bootstrap with `availableAmps = 0`
(reading equals capacity), a nonzero `totalAmps`, and
`minAmpDraw ≤ currentAmpDraw < maxAmpDraw` with `currentAmpDraw > 0` and
`carryoverAdjustment ∈ [0, 1)`: the device holds — `currentAmpDraw` is
unchanged and `desiredAmpDraw` is set to `currentAmpDraw` — for every
lottery outcome.  (The claim quantifier, for every value of currentAmpDraw, is false:
below `minAmpDraw` the desired value is raised to `minAmpDraw` instead, and
at `currentAmpDraw = maxAmpDraw` the branch is skipped entirely.) -/
theorem C5_balanced_hold (total amps : ℤ) (d : Device) (now r : ℚ)
    (h_on : d.is_on = true) (h_ev : d.is_ev = true)
    (h_amps : amps = total)
    (h_pos : 0 < d.current_amp_draw)
    (hmn : d.min_amp_draw ≤ d.current_amp_draw)
    (hmx : d.current_amp_draw < d.max_amp_draw)
    (h_t : total ≠ 0)
    (hc0 : 0 ≤ d.carryover_adjustment) (hc1 : d.carryover_adjustment < 1) :
    (set_draw total d (some amps) now r).2 = none ∧
    (set_draw total d (some amps) now r).1.current_amp_draw =
      d.current_amp_draw ∧
    (set_draw total d (some amps) now r).1.desired_amp_draw =
      d.current_amp_draw := by
  rw [set_draw_ev_data total amps d now r h_on h_ev (Or.inr (by omega))]
  rw [show total - amps = 0 by omega]
  simp only [continueEv]
  rw [if_neg (lt_irrefl 0),
    if_pos (⟨le_refl 0, hmx⟩ : (0 : ℤ) ≤ 0 ∧
      ({ d with last_heartbeat := now } : Device).current_amp_draw <
        ({ d with last_heartbeat := now } : Device).max_amp_draw)]
  exact headroomBranch_balanced total { d with last_heartbeat := now } r
    h_pos hmn hmx h_t hc0 hc1

/-- C5 witness: the balanced-hold theorem applied to a concrete on EV
(min 6, current 10, max 48) receiving a reading of 100 A in a 100 A
system. -/
theorem C5_witness :
    (set_draw 100 ⟨6, 6, 48, 10, true, false, 10, 10, true, true, 0, 0, 0⟩
        (some 100) 0 0).2 = none ∧
    (set_draw 100 ⟨6, 6, 48, 10, true, false, 10, 10, true, true, 0, 0, 0⟩
        (some 100) 0 0).1.current_amp_draw =
      (⟨6, 6, 48, 10, true, false, 10, 10, true, true, 0, 0, 0⟩ :
        Device).current_amp_draw ∧
    (set_draw 100 ⟨6, 6, 48, 10, true, false, 10, 10, true, true, 0, 0, 0⟩
        (some 100) 0 0).1.desired_amp_draw =
      (⟨6, 6, 48, 10, true, false, 10, 10, true, true, 0, 0, 0⟩ :
        Device).current_amp_draw :=
  C5_balanced_hold 100 100
    ⟨6, 6, 48, 10, true, false, 10, 10, true, true, 0, 0, 0⟩ 0 0
    rfl rfl rfl (by norm_num) (by norm_num) (by norm_num) (by norm_num)
    (by norm_num) (by norm_num)

/-- C5 counterexample: the claim as stated is false for
`currentAmpDraw < minAmpDraw`: an on EV at `current = 3 < min = 6` with a
balanced reading gets `desiredAmpDraw = 6` (raised to the minimum), not
`desiredAmpDraw = currentAmpDraw = 3`. -/
theorem C5_counterexample :
    (set_draw 100 ⟨6, 6, 48, 10, true, false, 3, 3, true, true, 0, 0, 0⟩
        (some 100) 0 0).1.desired_amp_draw = 6 ∧
    (set_draw 100 ⟨6, 6, 48, 10, true, false, 3, 3, true, true, 0, 0, 0⟩
        (some 100) 0 0).1.current_amp_draw = 3 ∧
    (6 : ℤ) ≠ 3 := by
  refine ⟨?_, ?_, by norm_num⟩ <;>
    norm_num [set_draw, continueEv, headroomBranch, headroomDesired,
      applyIncrease, pymodf]

/-! Claim C9 -/

/-- C9 (amended): after `isOn` is flipped to false, the next `set_draw`
invocation takes the Off branch and resets `currentAmpDraw = desiredAmpDraw
= 0` and `waitedCycles = 0`; `carryoverAdjustment` is NOT reset by the Off
branch and keeps its previous value (contrary to the claim). -/
theorem C9_off_branch (total : ℤ) (d : Device) (data : Option ℤ) (now r : ℚ)
    (h : d.is_on = false) :
    (set_draw total d data now r).1.current_amp_draw = 0 ∧
    (set_draw total d data now r).1.desired_amp_draw = 0 ∧
    (set_draw total d data now r).1.waited_cycles = 0 ∧
    (set_draw total d data now r).1.carryover_adjustment =
      d.carryover_adjustment := by
  rw [set_draw_off total d data now r h]
  exact ⟨rfl, rfl, rfl, rfl⟩

/-- C9 witness: the Off-branch theorem applied to a concrete off device
that still holds `carryoverAdjustment = 1/2`. -/
theorem C9_witness :
    (set_draw 100 ⟨6, 6, 48, 1, true, true, 5, 5, false, true, 2, 0, 1/2⟩
        none 0 0).1.current_amp_draw = 0 ∧
    (set_draw 100 ⟨6, 6, 48, 1, true, true, 5, 5, false, true, 2, 0, 1/2⟩
        none 0 0).1.desired_amp_draw = 0 ∧
    (set_draw 100 ⟨6, 6, 48, 1, true, true, 5, 5, false, true, 2, 0, 1/2⟩
        none 0 0).1.waited_cycles = 0 ∧
    (set_draw 100 ⟨6, 6, 48, 1, true, true, 5, 5, false, true, 2, 0, 1/2⟩
        none 0 0).1.carryover_adjustment =
      (⟨6, 6, 48, 1, true, true, 5, 5, false, true, 2, 0, 1/2⟩ :
        Device).carryover_adjustment :=
  C9_off_branch 100 ⟨6, 6, 48, 1, true, true, 5, 5, false, true, 2, 0, 1/2⟩
    none 0 0 rfl

/-- C9 counterexample: the claim as stated is false: the Off branch does
not reset `carryoverAdjustment` — an off device holding `1/2` still holds
`1/2` after `set_draw`, not `0`. -/
theorem C9_counterexample :
    (set_draw 100 ⟨6, 6, 48, 1, true, true, 5, 5, false, true, 2, 0, 1/2⟩
        none 0 0).1.carryover_adjustment = 1/2 ∧ ((1 : ℚ)/2 ≠ 0) := by
  constructor
  · rfl
  · norm_num

/-! Claim C6 -/

/-- C6 (amended): for an on EV, `set_draw` records `lastHeartbeat = now`
on EVERY invocation — both when a meter reading is supplied and when none is
(stale-signal / local timer tick) — not only when a reading is supplied. -/
theorem C6_heartbeat_always_recorded (total : ℤ) (d : Device)
    (data : Option ℤ) (now r : ℚ) (h_on : d.is_on = true)
    (h_ev : d.is_ev = true) :
    (set_draw total d data now r).1.last_heartbeat = now := by
  by_cases h_boot : d.always_draw_min = true ∧ d.current_amp_draw = 0
  · rw [set_draw_bootstrap total d data now r h_on h_ev h_boot.1 h_boot.2]
  · have h_boot' := not_bootstrap_cases d h_boot
    rcases data with _ | amps
    · by_cases hsc : d.safe_amp_draw < d.current_amp_draw
      · rw [set_draw_ev_none_clamp total d now r h_on h_ev h_boot' hsc,
          continueEv_heartbeat]
      · rw [set_draw_ev_none_noclamp total d now r h_on h_ev h_boot' hsc,
          continueEv_heartbeat]
    · rw [set_draw_ev_data total amps d now r h_on h_ev h_boot',
        continueEv_heartbeat]

/-- C6 witness: the heartbeat theorem applied to a concrete on EV
receiving a meter reading at time 7. -/
theorem C6_witness :
    (set_draw 100 ⟨6, 6, 48, 10, true, false, 10, 10, true, true, 0, 0, 0⟩
        (some 90) 7 1).1.last_heartbeat = 7 :=
  C6_heartbeat_always_recorded 100
    ⟨6, 6, 48, 10, true, false, 10, 10, true, true, 0, 0, 0⟩ (some 90) 7 1
    rfl rfl

/-- C6 counterexample: the claim as stated is false: an invocation with
NO reading also updates `lastHeartbeat` — an on EV with `lastHeartbeat = 0`
invoked with `data = None` at time 42 ends with `lastHeartbeat = 42`, not
left unchanged at 0. -/
theorem C6_counterexample :
    (set_draw 100 ⟨6, 6, 48, 10, true, true, 0, 0, true, true, 0, 0, 0⟩
        none 42 0).1.last_heartbeat = 42 ∧ ((42 : ℚ) ≠ 0) := by
  constructor
  · rfl
  · norm_num

/-! Claim C8 -/

/-- C8 (amended): construction validation applies only to EV devices:
`Device.__init__` fails (ValueError) exactly when `isEV` and
`0 < safeAmpDraw < minAmpDraw`; every non-EV construction succeeds, as does
every EV construction with `safeAmpDraw = 0` or `safeAmpDraw ≥ minAmpDraw`.
(The claim wrongly extends the check to non-EV devices.) -/
theorem C8_construction_validation (mn sf : ℤ) (mx : Option ℤ) (ev al : Bool)
    (w : ℤ) :
    (deviceInit mn sf mx ev al w).isOk = false ↔
      ev = true ∧ sf < mn ∧ 0 < sf := by
  simp only [deviceInit]
  split_ifs with h
  · exact iff_of_true rfl h
  · exact iff_of_false (fun hc => nomatch hc) h

/-- C8 counterexample: the claim as stated is false: a NON-EV device with
nonzero `safeAmpDraw = 5` strictly below `minAmpDraw = 10` is constructed
without error. -/
theorem C8_counterexample :
    (0 : ℤ) < 5 ∧ (5 : ℤ) < 10 ∧
      (deviceInit 10 5 (some 20) false true 1).isOk = true := by
  refine ⟨by norm_num, by norm_num, rfl⟩

/-! Claim C7 -/

/-- C7: contrary to the claim (and as §7 of the spec itself concedes for
the source), `set_draw` does NOT guard `weight / totalAmps` when
`totalAmps = 0`: any on EV past the bootstrap case that receives a reading
with positive aggregate draw enters the overdraw branch and, while
`waitedCycles ≤ 3`, raises `ZeroDivisionError` instead of returning
normally. -/
theorem C7_total_zero_raises (d : Device) (amps : ℤ) (now r : ℚ)
    (h_on : d.is_on = true) (h_ev : d.is_ev = true)
    (h_boot : d.always_draw_min = false ∨ d.current_amp_draw ≠ 0)
    (h_amps : 0 < amps) (h_w : d.waited_cycles ≤ 3) :
    (set_draw 0 d (some amps) now r).2 = some ("ZeroDivisionError") := by
  rw [set_draw_ev_data 0 amps d now r h_on h_ev h_boot]
  have ha : (0 : ℤ) - amps < 0 := by omega
  simp only [continueEv, overdrawBranch]
  rw [if_pos ha, if_neg (show ¬(3 : ℤ) <
    ({ d with last_heartbeat := now } : Device).waited_cycles from
      not_lt.mpr h_w)]
  simp

/-- C7 witness: the zero-capacity theorem applied to a concrete on EV
drawing 3 A that receives a reading of 5 A in a 0 A system. -/
theorem C7_witness :
    (set_draw 0 ⟨0, 0, 48, 1, true, false, 3, 3, true, true, 0, 0, 0⟩
        (some 5) 0 0).2 = some ("ZeroDivisionError") :=
  C7_total_zero_raises ⟨0, 0, 48, 1, true, false, 3, 3, true, true, 0, 0, 0⟩
    5 0 0 rfl rfl (Or.inl rfl) (by norm_num) (by norm_num)

/-! Claim C10 -/

/-- C10 (amended): for an on EV with `alwaysDrawMin = false`,
`minAmpDraw = 0`, `currentAmpDraw = 0` and **`maxAmpDraw > 0`** (hypothesis
the claim lacks; required to enter the headroom branch), a reading whose
aggregate equals `totalAmps` makes the candidate `desiredAmpDraw` equal 0,
and the stability gate division by `desiredAmpDraw` raises
`ZeroDivisionError` instead of returning. -/
theorem C10_stability_gate_division (total amps : ℤ) (d : Device)
    (now r : ℚ) (h_on : d.is_on = true) (h_ev : d.is_ev = true)
    (h_al : d.always_draw_min = false) (h_mn : d.min_amp_draw = 0)
    (h_cz : d.current_amp_draw = 0) (h_mx : 0 < d.max_amp_draw)
    (h_amps : amps = total) :
    (set_draw total d (some amps) now r).1.desired_amp_draw = 0 ∧
    (set_draw total d (some amps) now r).2 = some ("ZeroDivisionError") := by
  rw [set_draw_ev_data total amps d now r h_on h_ev (Or.inl h_al)]
  have ha : total - amps = 0 := by omega
  rw [ha]
  have hdes : headroomDesired { d with last_heartbeat := now } 0 = 0 := by
    simp only [headroomDesired]
    have e1 : ({ d with last_heartbeat := now } : Device).min_amp_draw =
      d.min_amp_draw := rfl
    have e2 : ({ d with last_heartbeat := now } : Device).max_amp_draw =
      d.max_amp_draw := rfl
    have e3 : ({ d with last_heartbeat := now } : Device).current_amp_draw =
      d.current_amp_draw := rfl
    rw [e1, e2, e3]
    split_ifs with h <;> omega
  simp only [continueEv]
  rw [if_neg (lt_irrefl 0), if_pos (show (0 : ℤ) ≤ 0 ∧
    ({ d with last_heartbeat := now } : Device).current_amp_draw <
      ({ d with last_heartbeat := now } : Device).max_amp_draw from
    ⟨le_refl 0, show d.current_amp_draw < d.max_amp_draw by omega⟩)]
  simp only [headroomBranch]
  rw [if_pos hdes]
  exact ⟨hdes, rfl⟩

/-- C10 witness: the stability-gate theorem applied to a concrete on EV
(min 0, max 48, current 0, `alwaysDrawMin` false) receiving a reading of
100 A in a 100 A system. -/
theorem C10_witness :
    (set_draw 100 ⟨0, 0, 48, 1, true, false, 0, 7, true, true, 0, 0, 0⟩
        (some 100) 0 0).1.desired_amp_draw = 0 ∧
    (set_draw 100 ⟨0, 0, 48, 1, true, false, 0, 7, true, true, 0, 0, 0⟩
        (some 100) 0 0).2 = some ("ZeroDivisionError") :=
  C10_stability_gate_division 100 100
    ⟨0, 0, 48, 1, true, false, 0, 7, true, true, 0, 0, 0⟩ 0 0
    rfl rfl rfl rfl rfl (by norm_num) rfl

/-- C10 counterexample: the claim as stated (with no `maxAmpDraw`
hypothesis) is false: a device with `maxAmpDraw = 0` in the claimed
configuration never enters the headroom branch, so `set_draw` returns
normally instead of raising. -/
theorem C10_counterexample :
    (set_draw 100 ⟨0, 0, 0, 1, true, false, 0, 0, true, true, 0, 0, 0⟩
        (some 100) 0 0).2 = none := rfl

end EvseSimulator
